import Mathlib

/-!
Verification development for the deskcoach posture-time accounting and
reminder engine.  The Python sources are shallowly embedded: timestamps are
unix seconds and heights are millimetres, both Python integers, modelled as
`Int`; Python clamps `max(0, x)` are written explicitly; fallible database
access is modelled with `Except`/flags; the stateful reminder engine becomes
explicit state passing.
-/

namespace DeskCoach

/-! ## utils/time_stats.py -/

/-- Length of overlap between half-open ranges `[a0, a1)` and `[b0, b1)`
(`_overlap_len`). -/
def overlap_len (a0 a1 b0 b1 : Int) : Int :=
  max 0 (min a1 b1 - max a0 b0)

/-- The loop of `_subtract_locked`: accumulate the overlap `cut` of the
segment with each lock interval, returning `0` as soon as `cut ≥ length`. -/
def subtractLockedGo (seg_start seg_end length : Int) :
    Int → List (Int × Int) → Int
  | cut, [] => max 0 (length - cut)
  | cut, (l0, l1) :: rest =>
      let cut' := cut + overlap_len seg_start seg_end l0 l1
      if cut' ≥ length then 0
      else subtractLockedGo seg_start seg_end length cut' rest

/-- `_subtract_locked`: effective unlocked length of `[seg_start, seg_end)`
after removing any overlap with the lock intervals. -/
def subtract_locked (seg_start seg_end : Int)
    (lock_intervals : List (Int × Int)) : Int :=
  let length := max 0 (seg_end - seg_start)
  if length = 0 ∨ lock_intervals = [] then length
  else subtractLockedGo seg_start seg_end length 0 lock_intervals

/-- The adjacent-pair loop of `accumulate_sit_stand_seconds`: each interval
between consecutive samples is attributed to the earlier sample's posture
(non-increasing steps are skipped). -/
def pairsAcc (locks : List (Int × Int)) (thr : Int) :
    List (Int × Int) → Int × Int
  | (t0, h0) :: (t1, h1) :: rest =>
      let acc := pairsAcc locks thr ((t1, h1) :: rest)
      if t1 ≤ t0 then acc
      else
        let effective := subtract_locked t0 t1 locks
        if effective ≤ 0 then acc
        else if h0 ≥ thr then (acc.1, acc.2 + effective)
        else (acc.1 + effective, acc.2)
  | _ => (0, 0)

/-- `accumulate_sit_stand_seconds`: seated and standing seconds for the
measurements up to `end_ts`, excluding locked time; the tail from the last
sample to `end_ts` takes the last sample's posture. -/
def accumulate_sit_stand_seconds (measurements : List (Int × Int))
    (lock_intervals : List (Int × Int)) (stand_threshold_mm end_ts : Int) :
    Int × Int :=
  if end_ts ≤ 0 ∨ measurements = [] then (0, 0)
  else
    let acc := pairsAcc lock_intervals stand_threshold_mm measurements
    match measurements.getLast? with
    | none => acc
    | some (last_ts, last_h) =>
        if end_ts > last_ts then
          let effective := subtract_locked last_ts end_ts lock_intervals
          if effective > 0 then
            if last_h ≥ stand_threshold_mm then (acc.1, acc.2 + effective)
            else (acc.1 + effective, acc.2)
          else acc
        else acc

/-! ### Interval-math lemmas -/

/-- Total overlap of `[s, e)` with a list of lock intervals (proof helper:
the cumulative `cut` of the `_subtract_locked` loop without short-circuit). -/
def ovlSum (s e : Int) : List (Int × Int) → Int
  | [] => 0
  | (l0, l1) :: rest => overlap_len s e l0 l1 + ovlSum s e rest

theorem overlap_len_nonneg (a0 a1 b0 b1 : Int) : 0 ≤ overlap_len a0 a1 b0 b1 :=
  le_max_left 0 _

theorem ovlSum_nonneg (s e : Int) : ∀ L : List (Int × Int), 0 ≤ ovlSum s e L
  | [] => le_refl 0
  | (l0, l1) :: rest => by
      have h1 := overlap_len_nonneg s e l0 l1
      have h2 := ovlSum_nonneg s e rest
      simpa [ovlSum] using add_nonneg h1 h2

theorem ovlSum_append (s e : Int) (L M : List (Int × Int)) :
    ovlSum s e (L ++ M) = ovlSum s e L + ovlSum s e M := by
  induction L with
  | nil => simp [ovlSum]
  | cons a rest ih =>
      obtain ⟨l0, l1⟩ := a
      simp [ovlSum, ih]
      ring

theorem subtractLockedGo_eq (s e length : Int) :
    ∀ (L : List (Int × Int)) (cut : Int),
      subtractLockedGo s e length cut L = max 0 (length - (cut + ovlSum s e L))
  | [], cut => by simp [subtractLockedGo, ovlSum]
  | (l0, l1) :: rest, cut => by
      have hrest := ovlSum_nonneg s e rest
      by_cases h : cut + overlap_len s e l0 l1 ≥ length
      · simp only [subtractLockedGo, ovlSum, if_pos h]
        omega
      · simp only [subtractLockedGo, ovlSum, if_neg h]
        rw [subtractLockedGo_eq s e length rest (cut + overlap_len s e l0 l1)]
        ring_nf

/-- Master normal form: `_subtract_locked` is the segment length minus the
total overlap, clamped at zero. -/
theorem subtract_locked_eq (s e : Int) (L : List (Int × Int)) :
    subtract_locked s e L = max 0 (max 0 (e - s) - ovlSum s e L) := by
  unfold subtract_locked
  by_cases h : max 0 (e - s) = 0 ∨ L = []
  · rw [if_pos h]
    rcases h with h | h
    · have := ovlSum_nonneg s e L
      omega
    · subst h
      simp [ovlSum]
  · rw [if_neg h, subtractLockedGo_eq]
    ring_nf

theorem subtract_locked_nonneg (s e : Int) (L : List (Int × Int)) :
    0 ≤ subtract_locked s e L := by
  rw [subtract_locked_eq]
  exact le_max_left 0 _

theorem subtract_locked_le (s e : Int) (L : List (Int × Int)) :
    subtract_locked s e L ≤ max 0 (e - s) := by
  rw [subtract_locked_eq]
  have := ovlSum_nonneg s e L
  omega

theorem subtract_locked_nil (s e : Int) (h : s ≤ e) :
    subtract_locked s e [] = e - s := by
  rw [subtract_locked_eq]
  simp [ovlSum]
  omega

theorem ovlSum_le_of_forall₂ (s e : Int) :
    ∀ {L M : List (Int × Int)},
      List.Forall₂ (fun a b : Int × Int => b.1 ≤ a.1 ∧ a.2 ≤ b.2) L M →
      ovlSum s e L ≤ ovlSum s e M := by
  intro L M h
  induction h with
  | nil => simp [ovlSum]
  | @cons a b L' M' hab _ ih =>
      obtain ⟨l0, l1⟩ := a
      obtain ⟨m0, m1⟩ := b
      obtain ⟨h0, h1⟩ := hab
      have hov : overlap_len s e l0 l1 ≤ overlap_len s e m0 m1 := by
        simp only [overlap_len]
        simp only at h0 h1
        omega
      simp only [ovlSum]
      omega

/-- C4: `subtract_locked` on the empty lock list is the exact segment length;
it is never negative; appending lock intervals never increases it; enlarging
the intervals pointwise never increases it; and once the cumulative overlap
reaches the segment length it is exactly `0`. -/
theorem subtract_locked_algebra :
    (∀ s e : Int, s ≤ e → subtract_locked s e [] = e - s) ∧
    (∀ (s e : Int) (locks : List (Int × Int)), 0 ≤ subtract_locked s e locks) ∧
    (∀ (s e : Int) (locks more : List (Int × Int)),
        subtract_locked s e (locks ++ more) ≤ subtract_locked s e locks) ∧
    (∀ (s e : Int) (locks locks' : List (Int × Int)),
        List.Forall₂ (fun a b : Int × Int => b.1 ≤ a.1 ∧ a.2 ≤ b.2) locks locks' →
        subtract_locked s e locks' ≤ subtract_locked s e locks) ∧
    (∀ (s e : Int) (locks : List (Int × Int)),
        max 0 (e - s) ≤ ovlSum s e locks → subtract_locked s e locks = 0) := by
  refine ⟨subtract_locked_nil, subtract_locked_nonneg, ?_, ?_, ?_⟩
  · intro s e locks more
    rw [subtract_locked_eq, subtract_locked_eq, ovlSum_append]
    have := ovlSum_nonneg s e more
    omega
  · intro s e locks locks' h
    rw [subtract_locked_eq, subtract_locked_eq]
    have := ovlSum_le_of_forall₂ s e h
    omega
  · intro s e locks h
    rw [subtract_locked_eq]
    omega

/-- Witness for C4 at concrete inputs. -/
theorem subtract_locked_algebra_witness :
    subtract_locked 0 5 [] = 5 ∧
    0 ≤ subtract_locked 0 5 [(1, 3)] ∧
    subtract_locked 0 5 ([(1, 3)] ++ [(2, 6)]) ≤ subtract_locked 0 5 [(1, 3)] ∧
    subtract_locked 0 5 [(0, 4)] ≤ subtract_locked 0 5 [(1, 3)] ∧
    subtract_locked 0 5 [(-2, 9)] = 0 :=
  ⟨subtract_locked_algebra.1 0 5 (by decide),
   subtract_locked_algebra.2.1 0 5 [(1, 3)],
   subtract_locked_algebra.2.2.1 0 5 [(1, 3)] [(2, 6)],
   subtract_locked_algebra.2.2.2.1 0 5 [(1, 3)] [(0, 4)]
     (List.Forall₂.cons (by constructor <;> decide) List.Forall₂.nil),
   subtract_locked_algebra.2.2.2.2 0 5 [(-2, 9)] (by decide)⟩

/-! ### Time-conservation lemmas for the accumulation loop -/

theorem pairsAcc_sum_le (locks : List (Int × Int)) (thr : Int) :
    ∀ (rest : List (Int × Int)) (t0 h0 : Int) (tl : Int × Int),
      ((t0, h0) :: rest).getLast? = some tl →
      List.Pairwise (fun a b : Int × Int => a.1 ≤ b.1) ((t0, h0) :: rest) →
      (pairsAcc locks thr ((t0, h0) :: rest)).1 +
          (pairsAcc locks thr ((t0, h0) :: rest)).2 ≤ tl.1 - t0
  | [], t0, h0, tl, hlast, _ => by
      simp only [List.getLast?_singleton, Option.some.injEq] at hlast
      subst hlast
      simp [pairsAcc]
  | (t1, h1) :: rest', t0, h0, tl, hlast, hsort => by
      rw [List.getLast?_cons_cons] at hlast
      have hsort' := (List.pairwise_cons.mp hsort).2
      have ht01 : t0 ≤ t1 :=
        (List.pairwise_cons.mp hsort).1 (t1, h1) (List.mem_cons_self _ _)
      have ih := pairsAcc_sum_le locks thr rest' t1 h1 tl hlast hsort'
      have heff := subtract_locked_le t0 t1 locks
      have heffn := subtract_locked_nonneg t0 t1 locks
      simp only [pairsAcc]
      split_ifs with h1' h2' h3' <;> simp only at * <;> omega

theorem pairsAcc_sum_eq (thr : Int) :
    ∀ (rest : List (Int × Int)) (t0 h0 : Int) (tl : Int × Int),
      ((t0, h0) :: rest).getLast? = some tl →
      List.Pairwise (fun a b : Int × Int => a.1 ≤ b.1) ((t0, h0) :: rest) →
      (pairsAcc [] thr ((t0, h0) :: rest)).1 +
          (pairsAcc [] thr ((t0, h0) :: rest)).2 = tl.1 - t0
  | [], t0, h0, tl, hlast, _ => by
      simp only [List.getLast?_singleton, Option.some.injEq] at hlast
      subst hlast
      simp [pairsAcc]
  | (t1, h1) :: rest', t0, h0, tl, hlast, hsort => by
      rw [List.getLast?_cons_cons] at hlast
      have hsort' := (List.pairwise_cons.mp hsort).2
      have ht01 : t0 ≤ t1 :=
        (List.pairwise_cons.mp hsort).1 (t1, h1) (List.mem_cons_self _ _)
      have ih := pairsAcc_sum_eq thr rest' t1 h1 tl hlast hsort'
      have heq : subtract_locked t0 t1 [] = t1 - t0 := subtract_locked_nil t0 t1 ht01
      simp only [pairsAcc]
      split_ifs with h1' h2' h3' <;> simp only at * <;> omega

/-- C2: over any window `[ws, we)` containing all (ascending, nonnegative)
sample timestamps, the accumulated seated plus standing seconds never exceed
the window length; and with no lock intervals and a sample at or before
`ws`, they exactly equal the window length.  Time before the first sample is
never attributed. -/
theorem accumulate_time_conservation
    (ms locks : List (Int × Int)) (thr ws we : Int)
    (hws : 0 ≤ ws) (hwe : ws ≤ we)
    (hsort : List.Pairwise (fun a b : Int × Int => a.1 ≤ b.1) ms)
    (hin : ∀ m ∈ ms, ws ≤ m.1 ∧ m.1 < we) :
    (accumulate_sit_stand_seconds ms locks thr we).1 +
        (accumulate_sit_stand_seconds ms locks thr we).2 ≤ we - ws ∧
    (locks = [] → (∃ m ∈ ms, m.1 ≤ ws) →
      (accumulate_sit_stand_seconds ms locks thr we).1 +
          (accumulate_sit_stand_seconds ms locks thr we).2 = we - ws) := by
  cases ms with
  | nil =>
      constructor
      · simp [accumulate_sit_stand_seconds]
        omega
      · intro _ hex
        simp at hex
  | cons hd tail =>
      obtain ⟨t0, h0⟩ := hd
      have hhd := hin (t0, h0) (List.mem_cons_self _ _)
      have hwe0 : 0 < we := by omega
      have hnot : ¬(we ≤ 0 ∨ (t0, h0) :: tail = ([] : List (Int × Int))) := by
        simp
        omega
      have hne : ((t0, h0) :: tail) ≠ [] := by simp
      have hlast : ((t0, h0) :: tail).getLast? =
          some (((t0, h0) :: tail).getLast hne) :=
        List.getLast?_eq_getLast _ hne
      set tl := ((t0, h0) :: tail).getLast hne with htl
      have htlmem : tl ∈ (t0, h0) :: tail := List.getLast_mem hne
      have htlin := hin tl htlmem
      have hle := pairsAcc_sum_le locks thr tail t0 h0 tl hlast hsort
      have heff := subtract_locked_le tl.1 we locks
      have heffn := subtract_locked_nonneg tl.1 we locks
      obtain ⟨lt, lh⟩ := tl
      simp only at htlin heff heffn hle
      constructor
      · simp only [accumulate_sit_stand_seconds, if_neg hnot, hlast]
        rw [if_pos (by omega : we > lt)]
        split_ifs with h1' h2' <;> omega
      · intro hlk hex
        subst hlk
        have hhead : t0 = ws := by
          obtain ⟨m, hm, hmle⟩ := hex
          rcases List.mem_cons.mp hm with hm | hm
          · rw [hm] at hmle
            simp only at hmle
            omega
          · have := (List.pairwise_cons.mp hsort).1 m hm
            have := hin m (List.mem_cons_of_mem _ hm)
            omega
        have heq := pairsAcc_sum_eq thr tail t0 h0 (lt, lh) hlast hsort
        have heqe : subtract_locked lt we [] = we - lt :=
          subtract_locked_nil lt we (by omega)
        simp only [accumulate_sit_stand_seconds, if_neg hnot, hlast]
        rw [if_pos (by omega : we > lt)]
        rw [heqe, if_pos (by omega : we - lt > 0)]
        simp only at heq
        split_ifs with h1' <;> omega

/-- Witness for C2 at concrete inputs. -/
theorem accumulate_time_conservation_witness :
    (accumulate_sit_stand_seconds [(10, 800), (20, 950)] [] 900 25).1 +
        (accumulate_sit_stand_seconds [(10, 800), (20, 950)] [] 900 25).2 ≤ 25 - 10 ∧
    (accumulate_sit_stand_seconds [(10, 800), (20, 950)] [] 900 25).1 +
        (accumulate_sit_stand_seconds [(10, 800), (20, 950)] [] 900 25).2 = 25 - 10 :=
  ⟨(accumulate_time_conservation [(10, 800), (20, 950)] [] 900 10 25 (by decide)
      (by decide) (by decide) (by decide)).1,
   (accumulate_time_conservation [(10, 800), (20, 950)] [] 900 10 25 (by decide)
      (by decide) (by decide) (by decide)).2 rfl ⟨(10, 800), by decide, by decide⟩⟩

/-! ## services/reminder.py

The engine's database queries are embedded by passing the query results (or
the full event table) as explicit arguments; `datetime.now()` becomes an
explicit `now` parameter in unix seconds; `timedelta(minutes=m)` becomes
`m * 60` seconds.
-/

/-- Session event kinds; the `session_events` table only admits these. -/
inductive SessionEventKind
  | LOCK
  | UNLOCK
deriving DecidableEq, Repr

/-- `ReminderConfig` dataclass. -/
structure ReminderConfig where
  stand_threshold_mm : Int
  remind_after_minutes : Int
  remind_repeat_minutes : Int
  snooze_minutes : Int
  standing_check_after_minutes : Int
  standing_check_repeat_minutes : Int
  lock_reset_threshold_minutes : Int
deriving DecidableEq, Repr

/-- The engine's mutable fields (`_snoozed_until`, `_next_ready_at`,
`_next_ready_standing`, `_next_ready_seated`), all nullable timestamps. -/
structure ReminderState where
  snoozed_until : Option Int
  next_ready_at : Option Int
  next_ready_standing : Option Int
  next_ready_seated : Option Int
deriving DecidableEq, Repr

/-- Notifications emitted through `notifier.notify`. -/
inductive Notification
  | standUp (minutes : Int)
  | postureCheck
deriving DecidableEq, Repr

/-- The most recent `UNLOCK` row
(`SELECT ts FROM session_events WHERE event='UNLOCK' ORDER BY ts DESC LIMIT 1`). -/
def latest_unlock_ts (events : List (Int × SessionEventKind)) : Option Int :=
  ((events.filter fun r => r.2 == SessionEventKind.UNLOCK).map Prod.fst).max?

/-- The most recent `LOCK` row at or before `upto`
(`SELECT ts FROM session_events WHERE event='LOCK' AND ts <= ? ORDER BY ts DESC LIMIT 1`). -/
def latest_lock_ts_le (events : List (Int × SessionEventKind)) (upto : Int) : Option Int :=
  ((events.filter fun r => r.2 == SessionEventKind.LOCK && decide (r.1 ≤ upto)).map
    Prod.fst).max?

/-- `_last_long_lock_unlock_ts`: the ts of the most recent UNLOCK, provided
the most recent LOCK before it lasted at least the threshold; `none`
otherwise. -/
def last_long_lock_unlock_ts (events : List (Int × SessionEventKind))
    (threshold_minutes : Int) : Option Int :=
  let threshold_sec := max 0 threshold_minutes * 60
  match latest_unlock_ts events with
  | none => none
  | some unlock_ts =>
      match latest_lock_ts_le events unlock_ts with
      | none => none
      | some lock_ts =>
          if unlock_ts - lock_ts ≥ threshold_sec then some unlock_ts else none

/-- The backward walk of `_compute_seated_streak_minutes` over measurement
rows in descending-ts order: stop at the first standing sample, otherwise
remember the row's timestamp. -/
def seatedStreakWalk (thr : Int) : List (Int × Int) → Int → Int
  | [], last_ts => last_ts
  | (ts, h) :: rest, last_ts =>
      if h ≥ thr then last_ts else seatedStreakWalk thr rest ts

/-- The backward walk of `_compute_standing_streak_minutes`: stop at the
first seated sample. -/
def standingStreakWalk (thr : Int) : List (Int × Int) → Int → Int
  | [], last_ts => last_ts
  | (ts, h) :: rest, last_ts =>
      if h < thr then last_ts else standingStreakWalk thr rest ts

/-- `_compute_seated_streak_minutes`; `rowsDesc` is the measurement query
result (descending ts). -/
def compute_seated_streak_minutes (cfg : ReminderConfig)
    (rowsDesc : List (Int × Int)) (events : List (Int × SessionEventKind))
    (now_ts latest_height : Int) : Int :=
  if latest_height ≥ cfg.stand_threshold_mm then 0
  else
    let last_ts := seatedStreakWalk cfg.stand_threshold_mm rowsDesc now_ts
    let last_ts :=
      match last_long_lock_unlock_ts events cfg.lock_reset_threshold_minutes with
      | some lu_ts => if lu_ts > last_ts then lu_ts else last_ts
      | none => last_ts
    max 0 (now_ts - last_ts) / 60

/-- `_compute_standing_streak_minutes`. -/
def compute_standing_streak_minutes (cfg : ReminderConfig)
    (rowsDesc : List (Int × Int)) (events : List (Int × SessionEventKind))
    (now_ts latest_height : Int) : Int :=
  if latest_height < cfg.stand_threshold_mm then 0
  else
    let last_ts := standingStreakWalk cfg.stand_threshold_mm rowsDesc now_ts
    let last_ts :=
      match last_long_lock_unlock_ts events cfg.lock_reset_threshold_minutes with
      | some lu_ts => if lu_ts > last_ts then lu_ts else last_ts
      | none => last_ts
    max 0 (now_ts - last_ts) / 60

/-- `is_snoozed`. -/
def is_snoozed (st : ReminderState) (now : Int) : Bool :=
  match st.snoozed_until with
  | none => false
  | some u => decide (now < u)

/-- `snooze`: `minutes = none` falls back to `cfg.snooze_minutes`. -/
def snooze (cfg : ReminderConfig) (st : ReminderState) (now : Int)
    (minutes : Option Int) : ReminderState :=
  let mins := minutes.getD cfg.snooze_minutes
  { st with snoozed_until := some (now + mins * 60) }

/-- The cadence guard `next is None or now >= next`. -/
def cadence_ready (next : Option Int) (now : Int) : Bool :=
  match next with
  | none => true
  | some t => decide (now ≥ t)

/-- `on_new_measurement`: evaluate reminder conditions for a new sample.
Returns the updated state and the notifications fired. -/
def on_new_measurement (cfg : ReminderConfig) (st : ReminderState)
    (rowsDesc : List (Int × Int)) (events : List (Int × SessionEventKind))
    (unlocked : Bool) (ts height_mm now : Int) :
    ReminderState × List Notification :=
  match unlocked with
  | false => (st, [])
  | true =>
    let seated_streak_min := compute_seated_streak_minutes cfg rowsDesc events ts height_mm
    let standing_streak_min := compute_standing_streak_minutes cfg rowsDesc events ts height_mm
    let is_standing := height_mm ≥ cfg.stand_threshold_mm
    let st1 :=
      if is_standing then { st with next_ready_seated := none, next_ready_at := none }
      else { st with next_ready_standing := none, next_ready_at := none }
    if is_snoozed st1 now then (st1, [])
    else
      let fire1 := ¬is_standing ∧ seated_streak_min ≥ cfg.remind_after_minutes
      let p2 :=
        if fire1 then
          if cadence_ready st1.next_ready_seated now then
            ({ st1 with next_ready_seated := some (now + cfg.remind_repeat_minutes * 60) },
             [Notification.standUp seated_streak_min])
          else (st1, [])
        else (st1, [])
      let fire2 := is_standing ∧ standing_streak_min ≥ cfg.standing_check_after_minutes
      let p3 :=
        if fire2 then
          if cadence_ready p2.1.next_ready_standing now then
            ({ p2.1 with
                next_ready_standing := some (now + cfg.standing_check_repeat_minutes * 60) },
             p2.2 ++ [Notification.postureCheck])
          else p2
        else p2
      p3

/-! ### Reminder-engine theorems -/

/-- C1 (scenario from the repository's own test suite, `now = 10000`): one
seated measurement `5000 s` old, a `300 s` LOCK/UNLOCK pair whose UNLOCK is
`300 s` before now, then a later `30 s` LOCK/UNLOCK pair, with a 5-minute
lock-reset threshold.  `_last_long_lock_unlock_ts` only inspects the most
recent UNLOCK (whose lock lasted `30 s`), returns `none`, and the seated
streak comes out as `83` minutes (the measurement age) instead of the
specified `5` minutes anchored at the long UNLOCK. -/
theorem seated_streak_lock_reset_divergence :
    last_long_lock_unlock_ts
        [(9400, SessionEventKind.LOCK), (9700, SessionEventKind.UNLOCK),
         (9940, SessionEventKind.LOCK), (9970, SessionEventKind.UNLOCK)] 5 = none ∧
    compute_seated_streak_minutes ⟨900, 45, 5, 30, 30, 30, 5⟩ [(5000, 800)]
        [(9400, SessionEventKind.LOCK), (9700, SessionEventKind.UNLOCK),
         (9940, SessionEventKind.LOCK), (9970, SessionEventKind.UNLOCK)]
        10000 800 = 83 ∧
    compute_seated_streak_minutes ⟨900, 45, 5, 30, 30, 30, 5⟩ [(5000, 800)]
        [(9400, SessionEventKind.LOCK), (9700, SessionEventKind.UNLOCK),
         (9940, SessionEventKind.LOCK), (9970, SessionEventKind.UNLOCK)]
        10000 800 ≠ 5 := by
  refine ⟨by decide, by decide, by decide⟩

/-- Configuration for the C3 cadence scenario:
`remindAfterMinutes = 1`, `remindRepeatMinutes = 10`. -/
def cadenceCfg : ReminderConfig := ⟨900, 1, 10, 30, 30, 30, 5⟩

/-- C3 scenario, first sample: seated sample at `now = 100000` whose streak
(measurement history back to `96400`) is 60 minutes. -/
def cadenceStep1 : ReminderState × List Notification :=
  on_new_measurement cadenceCfg ⟨none, none, none, none⟩ [(96400, 800)] []
    true 100000 800 100000

/-- C3 scenario, second seated sample 5 seconds later. -/
def cadenceStep2 : ReminderState × List Notification :=
  on_new_measurement cadenceCfg cadenceStep1.1 [(96400, 800)] []
    true 100005 800 100005

/-- C3 scenario, third seated sample once `nextSeatedReminderAt` has
passed. -/
def cadenceStep3 : ReminderState × List Notification :=
  on_new_measurement cadenceCfg cadenceStep2.1 [(96400, 800)] []
    true 100600 800 100600

/-- C3: with `remindAfterMinutes = 1` and `remindRepeatMinutes = 10`, a
seated sample with a 60-minute streak fires exactly one "Stand up"
notification and sets the seated cadence to `now + 10` minutes; a second
sample 5 seconds later fires nothing; a third sample at the cadence time
fires a second notification. -/
theorem reminder_cadence_scenario :
    cadenceStep1.2 = [Notification.standUp 60] ∧
    cadenceStep1.1.next_ready_seated = some (100000 + 10 * 60) ∧
    cadenceStep2.2 = [] ∧
    cadenceStep2.1.next_ready_seated = some (100000 + 10 * 60) ∧
    cadenceStep3.2 = [Notification.standUp 70] := by
  refine ⟨by decide, by decide, by decide, by decide, by decide⟩

/-- C8: once `snooze(m)` has set `snoozedUntil`, any measurement evaluated
strictly before that time fires no notification of either kind, whatever the
streaks, cadence timers, posture or lock state. -/
theorem reminder_snooze_suppresses
    (cfg : ReminderConfig) (st st2 : ReminderState) (snooze_now m : Int)
    (rowsDesc : List (Int × Int)) (events : List (Int × SessionEventKind))
    (unlocked : Bool) (ts height_mm now : Int)
    (hsn : st2.snoozed_until = (snooze cfg st snooze_now (some m)).snoozed_until)
    (hnow : now < snooze_now + m * 60) :
    (on_new_measurement cfg st2 rowsDesc events unlocked ts height_mm now).2 = [] := by
  have h2 : st2.snoozed_until = some (snooze_now + m * 60) := by
    simpa [snooze] using hsn
  cases unlocked with
  | false => simp [on_new_measurement]
  | true =>
      by_cases hstand : height_mm ≥ cfg.stand_threshold_mm <;>
        simp [on_new_measurement, hstand, is_snoozed, h2, hnow]

/-- Witness for C8 at concrete inputs. -/
theorem reminder_snooze_suppresses_witness :
    (5 : Int) < 0 + 10 * 60 ∧
    (on_new_measurement ⟨900, 1, 10, 30, 30, 30, 5⟩ ⟨some 600, none, none, none⟩
        [] [] true 5 800 5).2 = [] :=
  ⟨by decide,
   reminder_snooze_suppresses ⟨900, 1, 10, 30, 30, 30, 5⟩ ⟨none, none, none, none⟩
     ⟨some 600, none, none, none⟩ 0 10 [] [] true 5 800 5 (by decide) (by decide)⟩

/-- C9: on every unlocked measurement the opposite posture's cadence timer
(and the legacy `_next_ready_at`) is cleared, snoozed or not; on a locked
measurement the state is returned unchanged and nothing fires. -/
theorem reminder_opposite_cadence_reset
    (cfg : ReminderConfig) (st : ReminderState)
    (rowsDesc : List (Int × Int)) (events : List (Int × SessionEventKind))
    (ts height_mm now : Int) :
    (height_mm ≥ cfg.stand_threshold_mm →
      (on_new_measurement cfg st rowsDesc events true ts height_mm now).1.next_ready_seated
          = none ∧
      (on_new_measurement cfg st rowsDesc events true ts height_mm now).1.next_ready_at
          = none) ∧
    (height_mm < cfg.stand_threshold_mm →
      (on_new_measurement cfg st rowsDesc events true ts height_mm now).1.next_ready_standing
          = none ∧
      (on_new_measurement cfg st rowsDesc events true ts height_mm now).1.next_ready_at
          = none) ∧
    on_new_measurement cfg st rowsDesc events false ts height_mm now = (st, []) := by
  refine ⟨?_, ?_, by simp [on_new_measurement]⟩
  · intro hstand
    simp only [on_new_measurement]
    split <;> split_ifs <;> simp_all
  · intro hseat
    have hstand : ¬(height_mm ≥ cfg.stand_threshold_mm) := by omega
    simp only [on_new_measurement]
    split <;> split_ifs <;> simp_all

/-- Witness for C9 at concrete inputs. -/
theorem reminder_opposite_cadence_reset_witness :
    (950 : Int) ≥ (900 : Int) ∧
    (on_new_measurement ⟨900, 1, 10, 30, 30, 30, 5⟩ ⟨none, some 7, some 8, some 9⟩
        [] [] true 5 950 5).1.next_ready_seated = none :=
  ⟨by decide,
   ((reminder_opposite_cadence_reset ⟨900, 1, 10, 30, 30, 30, 5⟩ ⟨none, some 7, some 8, some 9⟩
      [] [] 5 950 5).1 (by decide)).1⟩

/-! ## models/store.py -/

/-- The event scan of `_locked_intervals`: walk the in-window events keeping
the `locked` flag and the pending `lock_start`, emitting clipped non-empty
intervals on LOCK-to-UNLOCK transitions, and closing a still-open lock at
`end_ts`. -/
def lockLoop (start_ts end_ts : Int) :
    List (Int × SessionEventKind) → Bool → Option Int → List (Int × Int)
  | [], locked, lock_start =>
      match locked, lock_start with
      | true, some ls => if end_ts > ls then [(ls, end_ts)] else []
      | _, _ => []
  | (ts, ev) :: rest, locked, lock_start =>
      match ev with
      | SessionEventKind.LOCK =>
          if locked then lockLoop start_ts end_ts rest locked lock_start
          else lockLoop start_ts end_ts rest true (some (max ts start_ts))
      | SessionEventKind.UNLOCK =>
          match locked, lock_start with
          | true, some ls =>
              if min ts end_ts > ls then
                (ls, min ts end_ts) :: lockLoop start_ts end_ts rest false none
              else lockLoop start_ts end_ts rest false none
          | l, s => lockLoop start_ts end_ts rest l s

/-- `_locked_intervals`.  `dbq` is the outcome of the two `session_events`
queries: the kind of the latest event at or before `start_ts`, and the
events in `(start_ts, end_ts]` in ascending order; `Except.error` models a
database failure, which the function catches by returning `[]`. -/
def locked_intervals
    (dbq : Except Unit (Option SessionEventKind × List (Int × SessionEventKind)))
    (start_ts end_ts : Int) : List (Int × Int) :=
  if end_ts ≤ start_ts then []
  else
    match dbq with
    | Except.error _ => []
    | Except.ok (row, events) =>
        let start_locked : Bool := decide (row = some SessionEventKind.LOCK)
        lockLoop start_ts end_ts events start_locked
          (if start_locked then some start_ts else none)

/-- The persistent store: `measurements` and `session_events` tables in
insertion order, and the `daily_aggregates` table as rows
`(date, sitting_sec, standing_sec, updated_ts)`.  Local calendar dates are
modelled as epoch day numbers. -/
structure Store where
  measurements : List (Int × Int)
  session_events : List (Int × SessionEventKind)
  daily_aggregates : List (Int × Int × Int × Int)
deriving DecidableEq, Repr

/-- Ascending-`ts` insertion (helper realizing a query's `ORDER BY ts ASC`). -/
def insertByTs {α : Type} (x : Int × α) : List (Int × α) → List (Int × α)
  | [] => [x]
  | y :: ys => if x.1 < y.1 then x :: y :: ys else y :: insertByTs x ys

/-- Sort rows ascending by timestamp. -/
def sortByTs {α : Type} : List (Int × α) → List (Int × α)
  | [] => []
  | x :: xs => insertByTs x (sortByTs xs)

/-- The latest session event at or before `t`
(`SELECT ... WHERE ts <= ? ORDER BY ts DESC LIMIT 1`); on a timestamp tie
the later row wins. -/
def lastEventAtOrBefore (events : List (Int × SessionEventKind)) (t : Int) :
    Option (Int × SessionEventKind) :=
  events.foldl
    (fun acc r =>
      if r.1 ≤ t then
        match acc with
        | none => some r
        | some b => if r.1 ≥ b.1 then some r else some b
      else acc)
    none

/-- `_locked_intervals` run against a store's event table (the successful
query path). -/
def locked_intervals_db (db : Store) (start_ts end_ts : Int) : List (Int × Int) :=
  locked_intervals
    (Except.ok
      ((lastEventAtOrBefore db.session_events start_ts).map Prod.snd,
       sortByTs (db.session_events.filter fun r =>
         decide (start_ts < r.1) && decide (r.1 ≤ end_ts))))
    start_ts end_ts

/-- `compute_day_aggregates`: measurements in `[start_ts, end_ts]` plus the
reconstructed lock intervals, delegated to the accumulator. -/
def compute_day_aggregates (db : Store) (start_ts end_ts stand_threshold_mm : Int) :
    Int × Int :=
  if end_ts ≤ start_ts then (0, 0)
  else
    let rows := sortByTs (db.measurements.filter fun r =>
      decide (start_ts ≤ r.1) && decide (r.1 ≤ end_ts))
    if rows = [] then (0, 0)
    else
      accumulate_sit_stand_seconds rows (locked_intervals_db db start_ts end_ts)
        stand_threshold_mm end_ts

/-- `_day_bounds_local`: start-of-day timestamp and date key for the local
date of `ts`; local midnight is modelled as epoch-day arithmetic (a fixed
timezone), the `YYYY-MM-DD` date string as the epoch day number. -/
def day_bounds_local (ts : Int) : Int × Int :=
  (ts - ts % 86400, ts / 86400)

/-- Lookup in the `daily_aggregates` rows by date key
(`SELECT sitting_sec, standing_sec, updated_ts ... WHERE date=?`). -/
def getAggRow : List (Int × Int × Int × Int) → Int → Option (Int × Int × Int)
  | [], _ => none
  | r :: rest, d => if r.1 = d then some r.2 else getAggRow rest d

/-- `INSERT ... ON CONFLICT(date) DO UPDATE` on the `daily_aggregates`
rows. -/
def upsertRow : List (Int × Int × Int × Int) → Int → Int → Int → Int →
    List (Int × Int × Int × Int)
  | [], d, s, t, u => [(d, s, t, u)]
  | r :: rest, d, s, t, u =>
      if r.1 = d then (d, s, t, u) :: rest else r :: upsertRow rest d s t u

/-- `upsert_daily_aggregate`. -/
def upsert_daily_aggregate (db : Store) (d sitting_sec standing_sec updated_ts : Int) :
    Store :=
  { db with daily_aggregates :=
      upsertRow db.daily_aggregates d sitting_sec standing_sec updated_ts }

/-- `get_today_aggregates`: return the cached row if its `updated_ts` is
within the 120-second freshness window, else recompute for
`[midnight, now]` and upsert with `updated_ts = now`.  Returns the value
and the updated store. -/
def get_today_aggregates (db : Store) (stand_threshold_mm now : Int) :
    (Int × Int) × Store :=
  let b := day_bounds_local now
  match getAggRow db.daily_aggregates b.2 with
  | some (sitting_sec, standing_sec, updated_ts) =>
      if updated_ts ≥ now - 120 then ((sitting_sec, standing_sec), db)
      else
        let r := compute_day_aggregates db b.1 now stand_threshold_mm
        (r, upsert_daily_aggregate db b.2 r.1 r.2 now)
  | none =>
      let r := compute_day_aggregates db b.1 now stand_threshold_mm
      (r, upsert_daily_aggregate db b.2 r.1 r.2 now)

/-- `get_aggregate_for_date`: the cached `(sitting_sec, standing_sec)` if
present. -/
def get_aggregate_for_date (db : Store) (d : Int) : Option (Int × Int) :=
  match getAggRow db.daily_aggregates d with
  | some (s, t, _) => some (s, t)
  | none => none

/-- `_day_bounds_for_date_str` on a valid date key: the full local day
`[midnight, midnight + 24h)`. -/
def day_bounds_for_date (d : Int) : Int × Int :=
  (d * 86400, d * 86400 + 24 * 3600)

/-- `compute_full_day_aggregates_for_date`. -/
def compute_full_day_aggregates_for_date (db : Store) (d stand_threshold_mm : Int) :
    Int × Int :=
  compute_day_aggregates db (day_bounds_for_date d).1 (day_bounds_for_date d).2
    stand_threshold_mm

/-- `ensure_daily_aggregate`: return the cached row if present; otherwise
compute the full day once and persist it with `updated_ts = now`. -/
def ensure_daily_aggregate (db : Store) (d stand_threshold_mm now : Int) :
    (Int × Int) × Store :=
  match get_aggregate_for_date db d with
  | some p => (p, db)
  | none =>
      let r := compute_full_day_aggregates_for_date db d stand_threshold_mm
      (r, upsert_daily_aggregate db d r.1 r.2 now)

/-- Python `str.upper` (on the ASCII event kinds the embedding needs). -/
def strUpper (s : String) : String := ⟨s.data.map Char.toUpper⟩

/-- Whether an `Except` result is a normal return. -/
def exceptOk {ε α : Type} : Except ε α → Bool
  | Except.ok _ => true
  | Except.error _ => false

/-- `save_session_event`: validate the uppercased kind first (a raised
`ValueError` is modelled as `Except.error`), then insert;
`storageOk = false` models a storage failure, which is swallowed. -/
def save_session_event (db : Store) (storageOk : Bool) (ts : Int) (event : String) :
    Except String Store :=
  let ev := strUpper event
  if ¬(ev = "LOCK" ∨ ev = "UNLOCK") then
    Except.error ("Invalid session event: " ++ event)
  else if storageOk then
    Except.ok { db with session_events :=
      db.session_events ++
        [(ts, if ev = "LOCK" then SessionEventKind.LOCK else SessionEventKind.UNLOCK)] }
  else Except.ok db

/-- `save_measurement`: insert with no exception handler, so storage
failures propagate. -/
def save_measurement (db : Store) (storageOk : Bool) (ts height_mm : Int) :
    Except String Store :=
  if storageOk then
    Except.ok { db with measurements := db.measurements ++ [(ts, height_mm)] }
  else Except.error "database failure"

/-! ### Store theorems -/

theorem lockLoop_dup (start_ts end_ts t t' : Int) (k : SessionEventKind)
    (post : List (Int × SessionEventKind)) :
    ∀ (pre : List (Int × SessionEventKind)) (locked : Bool) (ls : Option Int),
      lockLoop start_ts end_ts (pre ++ (t, k) :: (t', k) :: post) locked ls =
        lockLoop start_ts end_ts (pre ++ (t, k) :: post) locked ls := by
  intro pre
  induction pre with
  | nil =>
      intro locked ls
      cases k <;> cases locked <;> cases ls <;>
        simp only [List.nil_append, lockLoop] <;> (try split_ifs) <;>
        simp [lockLoop]
  | cons hd pre' ih =>
      intro locked ls
      obtain ⟨ts0, ev0⟩ := hd
      cases ev0 <;> cases locked <;> cases ls <;>
        simp only [List.cons_append, lockLoop] <;> (try split_ifs) <;>
        simp [ih]

/-- C5: the lock-interval reconstructor returns `[]` when the event log is
empty and on any data-access failure (it never propagates it); and a
consecutive duplicate event of the same kind never changes the output, for
any window and any prior-state row. -/
theorem locked_intervals_robustness :
    (∀ start_ts end_ts : Int,
        locked_intervals (Except.ok (none, [])) start_ts end_ts = []) ∧
    (∀ (start_ts end_ts : Int) (e : Unit),
        locked_intervals (Except.error e) start_ts end_ts = []) ∧
    (∀ (start_ts end_ts t t' : Int) (k : SessionEventKind)
        (row : Option SessionEventKind) (pre post : List (Int × SessionEventKind)),
        locked_intervals (Except.ok (row, pre ++ (t, k) :: (t', k) :: post))
            start_ts end_ts =
          locked_intervals (Except.ok (row, pre ++ (t, k) :: post)) start_ts end_ts) := by
  refine ⟨?_, ?_, ?_⟩
  · intro s e
    simp [locked_intervals, lockLoop]
  · intro s e u
    simp [locked_intervals]
  · intro s e t t' k row pre post
    by_cases h : e ≤ s
    · simp [locked_intervals, h]
    · simp only [locked_intervals, if_neg h]
      rw [lockLoop_dup]

/-- C6: with a cached row for today's date key, a fresh `updated_ts` (within
120 seconds of `now`) returns the cached pair with the store untouched; a
stale one recomputes over `[midnight, now]`, upserts with
`updated_ts = now`, and returns the fresh value. -/
theorem get_today_freshness (db : Store) (thr now sitting standing updated : Int)
    (hrow : getAggRow db.daily_aggregates (day_bounds_local now).2 =
      some (sitting, standing, updated)) :
    (updated ≥ now - 120 →
      get_today_aggregates db thr now = ((sitting, standing), db)) ∧
    (updated < now - 120 →
      get_today_aggregates db thr now =
        (compute_day_aggregates db (day_bounds_local now).1 now thr,
         upsert_daily_aggregate db (day_bounds_local now).2
           (compute_day_aggregates db (day_bounds_local now).1 now thr).1
           (compute_day_aggregates db (day_bounds_local now).1 now thr).2 now)) := by
  constructor
  · intro h
    simp only [get_today_aggregates, hrow]
    rw [if_pos h]
  · intro h
    simp only [get_today_aggregates, hrow]
    rw [if_neg (by omega)]

/-- Witness for C6 at concrete inputs. -/
theorem get_today_freshness_witness :
    getAggRow (Store.mk [] [] [(0, 1, 2, 40)]).daily_aggregates
        (day_bounds_local 50).2 = some (1, 2, 40) ∧
    (40 : Int) ≥ 50 - 120 ∧
    get_today_aggregates ⟨[], [], [(0, 1, 2, 40)]⟩ 900 50 =
      ((1, 2), ⟨[], [], [(0, 1, 2, 40)]⟩) :=
  ⟨by decide, by decide,
   (get_today_freshness ⟨[], [], [(0, 1, 2, 40)]⟩ 900 50 1 2 40 (by decide)).1
     (by decide)⟩

/-- C7: a second `ensure_daily_aggregate` call for the same date (with no
intervening writes) returns the same pair and leaves the store unchanged:
once computed, a date's aggregate is never recomputed or rewritten by this
path. -/
theorem ensure_daily_idempotent (db : Store) (d thr now1 now2 : Int) :
    (ensure_daily_aggregate (ensure_daily_aggregate db d thr now1).2 d thr now2).1 =
        (ensure_daily_aggregate db d thr now1).1 ∧
    (ensure_daily_aggregate (ensure_daily_aggregate db d thr now1).2 d thr now2).2 =
        (ensure_daily_aggregate db d thr now1).2 := by
  have hup : ∀ (rows : List (Int × Int × Int × Int)) (s t u : Int),
      getAggRow (upsertRow rows d s t u) d = some (s, t, u) := by
    intro rows s t u
    induction rows with
    | nil => simp [upsertRow, getAggRow]
    | cons r rest ih =>
        by_cases h : r.1 = d <;> simp [upsertRow, getAggRow, h, ih]
  cases hfound : get_aggregate_for_date db d with
  | some p => simp [ensure_daily_aggregate, hfound]
  | none =>
      simp only [ensure_daily_aggregate, hfound]
      simp [get_aggregate_for_date, upsert_daily_aggregate, hup]

/-- C10: `save_session_event` returns normally exactly when the uppercased
event is LOCK or UNLOCK; the raised `ValueError` depends only on the event
string (the validation precedes any storage access, so neither the store
contents nor a storage failure can alter it); with a valid kind a storage
failure is swallowed; and `save_measurement` propagates storage failures. -/
theorem save_event_error_policy :
    (∀ (db : Store) (storageOk : Bool) (ts : Int) (event : String),
        exceptOk (save_session_event db storageOk ts event) =
          decide (strUpper event = "LOCK" ∨ strUpper event = "UNLOCK")) ∧
    (∀ (db db' : Store) (storageOk storageOk' : Bool) (ts ts' : Int)
        (event msg : String),
        save_session_event db storageOk ts event = Except.error msg →
        save_session_event db' storageOk' ts' event = Except.error msg) ∧
    (∀ (db : Store) (ts height_mm : Int),
        exceptOk (save_measurement db false ts height_mm) = false ∧
        exceptOk (save_measurement db true ts height_mm) = true) := by
  refine ⟨?_, ?_, ?_⟩
  · intro db storageOk ts event
    by_cases h : strUpper event = "LOCK" ∨ strUpper event = "UNLOCK" <;>
      cases storageOk <;> simp [save_session_event, exceptOk, h]
  · intro db db' storageOk storageOk' ts ts' event msg h
    by_cases hv : strUpper event = "LOCK" ∨ strUpper event = "UNLOCK"
    · exfalso
      cases storageOk <;> simp [save_session_event, hv] at h
    · simp only [save_session_event, if_pos hv] at h ⊢
      exact h
  · intro db ts height_mm
    exact ⟨rfl, rfl⟩

/-- Witness for C10 at concrete inputs. -/
theorem save_event_error_policy_witness :
    save_session_event ⟨[], [], []⟩ true 0 "bogus" =
        Except.error ("Invalid session event: " ++ "bogus") ∧
    save_session_event ⟨[], [], []⟩ false 7 "bogus" =
        Except.error ("Invalid session event: " ++ "bogus") :=
  ⟨by rfl,
   save_event_error_policy.2.1 ⟨[], [], []⟩ ⟨[], [], []⟩ true false 0 7 "bogus"
     ("Invalid session event: " ++ "bogus") (by rfl)⟩

end DeskCoach
